import Mathlib

/-!
Verification development for the aws-quota-dashboard repository.

The definitions below are a shallow embedding of the Go source:
pure data transformations become Lean functions, remote AWS calls become
explicit environment parameters (each environment maps a request to the
value or error the provider would return), machine floating-point values
are modelled as rationals, and wall-clock instants as integers.
-/

/-- Embeds `model.Quota` (internal/model/models.go). -/
structure Quota where
  region : String
  serviceCode : String
  serviceName : String
  quotaName : String
  quotaCode : String
  value : ℚ
  usage : ℚ
  usagePercentage : ℚ
  hasUsageMetrics : Bool
  unit : String
  adjustable : Bool
  global : Bool
deriving DecidableEq

/-- Embeds `model.Service`. -/
structure Service where
  code : String
  name : String
deriving DecidableEq

/-- Embeds the relevant fields of `sqtypes.MetricInfo`. -/
structure MetricInfo where
  metricNamespace : Option String
  metricName : Option String
  metricDimensions : List (String × String)
  metricStatisticRecommendation : Option String
deriving DecidableEq

/-- Embeds the relevant fields of `cwtypes.Datapoint`; a missing statistic
field is a nil pointer in the Go struct. -/
structure Datapoint where
  timestamp : ℤ
  maximum : Option ℚ
  average : Option ℚ
  sum : Option ℚ
  minimum : Option ℚ
deriving DecidableEq

/-- Embeds the relevant fields of `sqtypes.ServiceQuota`. -/
structure ServiceQuota where
  quotaCode : Option String
  quotaName : Option String
  unit : Option String
  value : Option ℚ
  adjustable : Bool
  globalQuota : Bool
  usageMetric : Option MetricInfo
deriving DecidableEq

/-- Embeds `FetchResult` (internal/aws/quotas.go). -/
structure FetchResult where
  quotas : List Quota
  warnings : List String
deriving DecidableEq

/-- Embeds `safeString` (internal/aws/quotas.go): a nil string pointer
becomes the empty string. -/
def safeString (s : Option String) : String := s.getD ""

/-- The dedup key built in `deduplicateGlobalQuotas`:
`q.ServiceCode + ":" + q.QuotaCode`. -/
def dedupKey (q : Quota) : String := q.serviceCode ++ ":" ++ q.quotaCode

/-- The region rewrite `q.Region = "global"` applied to retained global
quotas in `deduplicateGlobalQuotas`. -/
def setGlobalRegion (q : Quota) : Quota := { q with region := "global" }

/-- The loop of `deduplicateGlobalQuotas`, with the `seen` set made
explicit as the list of keys inserted so far. -/
def dedupGo (seen : List String) : List Quota → List Quota
  | [] => []
  | q :: rest =>
    if q.global then
      if dedupKey q ∈ seen then dedupGo seen rest
      else setGlobalRegion q :: dedupGo (dedupKey q :: seen) rest
    else q :: dedupGo seen rest

/-- Embeds `deduplicateGlobalQuotas` (internal/aws/quotas.go). -/
def deduplicateGlobalQuotas (quotas : List Quota) : List Quota :=
  dedupGo [] quotas

/-- The warning string built in `GetQuotasForAllRegions` for a failed
region: `fmt.Sprintf("Failed to fetch quotas for region %s: %v", ...)`. -/
def regionWarning (region cause : String) : String :=
  "Failed to fetch quotas for region " ++ region ++ ": " ++ cause

/-- The quota lists drained from `quotasChan`: one list per region whose
`GetQuotasForRegion` call succeeded, concatenated.  The per-region fetch
outcome is an environment parameter; the channel drain order is modelled
as the region list order. -/
def collectRegionQuotas (fetch : String → Except String (List Quota))
    (regions : List String) : List Quota :=
  (regions.filterMap (fun r => (fetch r).toOption)).flatten

/-- The warnings accumulated in `GetQuotasForAllRegions`: one entry per
region whose fetch returned an error. -/
def collectWarnings (fetch : String → Except String (List Quota))
    (regions : List String) : List String :=
  regions.filterMap (fun r =>
    match fetch r with
    | .error e => some (regionWarning r e)
    | .ok _ => none)

/-- Embeds `GetQuotasForAllRegions` (internal/aws/quotas.go).  Every
goroutine returns nil, so `g.Wait()` never yields an error: the second
component (the Go-level returned error) is always `none`. -/
def GetQuotasForAllRegions (fetch : String → Except String (List Quota))
    (regions : List String) : FetchResult × Option String :=
  ({ quotas := deduplicateGlobalQuotas (collectRegionQuotas fetch regions)
     warnings := collectWarnings fetch regions }, none)

/-- Embeds `QuotaCodeToServiceMapping` (internal/aws/usage.go): the static
dispatch table from quota code to the declared service code of its probe.
The probe functions themselves make remote calls and are modelled by the
`DirectEnv` environment. -/
def QuotaCodeToServiceMapping : List (String × String) :=
  [("L-1194D53C", "eks"), ("L-6D3F50E6", "eks"), ("L-23414FF3", "eks"),
   ("L-6E77F4DE", "eks"),
   ("L-1216C47A", "ec2"), ("L-0263D0A3", "ec2"), ("L-0E3CBAB9", "ec2"),
   ("L-0DA580E9", "ec2"), ("L-309BACF6", "ec2"), ("L-407747CB", "ec2"),
   ("L-FE5A380F", "ec2"),
   ("L-D18FCD1D", "ebs"), ("L-7A658B76", "ebs"), ("L-FD252861", "ebs"),
   ("L-09BD8365", "ebs"),
   ("L-F678F1CE", "vpc"), ("L-DF5E4CA3", "vpc"), ("L-E79EC296", "vpc"),
   ("L-53DA6B97", "elasticloadbalancing"), ("L-69A177A2", "elasticloadbalancing"),
   ("L-B22855CB", "elasticloadbalancing"),
   ("L-CDE20ADC", "autoscaling"),
   ("L-DC2B2D3D", "s3"),
   ("L-9FEE3D26", "lambda"),
   ("L-7B6409FD", "rds"), ("L-952B80B8", "rds"),
   ("L-F98FE922", "dynamodb"),
   ("L-5B2E3F44", "cloudfront"),
   ("L-ACB674F3", "route53"),
   ("L-4019AD8D", "iam"), ("L-FE177D64", "iam"), ("L-0DA4ABF3", "iam"),
   ("L-D0B7243C", "iam"),
   ("L-61103206", "sns"),
   ("L-75826ACE", "sqs"),
   ("L-CFEB8E8D", "ecr")]

/-- The map lookup `QuotaCodeToServiceMapping[quota.QuotaCode]`, returning
the declared service code of the matching entry. -/
def lookupHandlerServiceCode (code : String) : Option String :=
  (QuotaCodeToServiceMapping.find? (fun p => p.1 == code)).map (fun p => p.2)

/-- Environment for `GetUsageDirectly`: whether `LoadConfig` succeeds, and
the outcome of the dispatched probe function for a given quota code. -/
structure DirectEnv where
  loadConfigOk : Bool
  handlerOutcome : String → Except String ℚ

/-- Embeds `GetUsageDirectly` (internal/aws/usage.go).  The Go function
returns `(usage, supported, err)`; a non-nil `err` is the `.error` case,
otherwise `.ok (usage, supported)`. -/
def GetUsageDirectly (env : DirectEnv) (quota : Quota) : Except String (ℚ × Bool) :=
  match lookupHandlerServiceCode quota.quotaCode with
  | none => .ok (0, false)
  | some svcCode =>
    if svcCode ≠ quota.serviceCode then .ok (0, false)
    else if env.loadConfigOk = false then .error "failed to load config"
    else
      match env.handlerOutcome quota.quotaCode with
      | .error e => .error e
      | .ok usage => .ok (usage, true)

/-- Embeds `enrichWithDirectAPI` (internal/aws/quotas.go): on error the
quota is left unchanged; when supported, usage and the has-usage flag are
set and the percentage is recomputed when the limit value is positive. -/
def enrichWithDirectAPI (env : DirectEnv) (quota : Quota) : Quota :=
  match GetUsageDirectly env quota with
  | .error _ => quota
  | .ok (usage, supported) =>
    if supported then
      let q := { quota with hasUsageMetrics := true, usage := usage }
      if q.value > 0 then { q with usagePercentage := q.usage / q.value * 100 }
      else q
    else quota

/-- Embeds `getStatisticFromRecommendation` (internal/aws/quotas.go). -/
def getStatisticFromRecommendation (recommendation : Option String) : String :=
  match recommendation with
  | some r => if r ≠ "" then r else "Maximum"
  | none => "Maximum"

/-- The accumulator loop of `findLatestDatapoint`: replace the current
candidate whenever a strictly later timestamp is seen. -/
def pickLatest (d : Datapoint) : List Datapoint → Datapoint
  | [] => d
  | d' :: ds => pickLatest (if d'.timestamp > d.timestamp then d' else d) ds

/-- Embeds `findLatestDatapoint` (internal/aws/quotas.go). -/
def findLatestDatapoint : List Datapoint → Option Datapoint
  | [] => none
  | d :: ds => some (pickLatest d ds)

/-- Embeds `extractValueFromDatapoint` (internal/aws/quotas.go): the Go
switch over the statistic name, where a nil statistic field falls through
to the final `return 0` and an unrecognized statistic uses Maximum. -/
def extractValueFromDatapoint (d : Datapoint) (stat : String) : ℚ :=
  if stat = "Maximum" then d.maximum.getD 0
  else if stat = "Average" then d.average.getD 0
  else if stat = "Sum" then d.sum.getD 0
  else if stat = "Minimum" then d.minimum.getD 0
  else d.maximum.getD 0

/-- Embeds `updateQuotaUsage` (internal/aws/quotas.go). -/
def updateQuotaUsage (quota : Quota) (value : ℚ) : Quota :=
  let q := { quota with usage := value }
  if q.value > 0 then { q with usagePercentage := q.usage / q.value * 100 }
  else q

/-- Embeds `processCloudWatchResult` (internal/aws/quotas.go). -/
def processCloudWatchResult (datapoints : List Datapoint) (stat : String)
    (quota : Quota) : Quota :=
  if datapoints.length = 0 then quota
  else
    match findLatestDatapoint datapoints with
    | none => quota
    | some latest =>
      let value := extractValueFromDatapoint latest stat
      updateQuotaUsage { quota with hasUsageMetrics := true } value

/-- Environment for the CloudWatch strategy: the outcome of
`queryCloudWatch` for a given usage metric and statistic. -/
def CloudWatchEnv : Type := MetricInfo → String → Except String (List Datapoint)

/-- Embeds `enrichWithUsageFromCloudWatch` (internal/aws/quotas.go). -/
def enrichWithUsageFromCloudWatch (cw : CloudWatchEnv) (usageMetric : MetricInfo)
    (quota : Quota) : Quota :=
  if usageMetric.metricNamespace = none ∨ usageMetric.metricName = none then quota
  else
    let stat := getStatisticFromRecommendation usageMetric.metricStatisticRecommendation
    match cw usageMetric stat with
    | .error _ => quota
    | .ok result =>
      if result.length = 0 then quota
      else processCloudWatchResult result stat quota

/-- The `model.Quota` record built at the top of the `buildQuotaList`
loop, before usage enrichment; unset numeric fields are Go zero values. -/
def mkQuota (region : String) (svc : Service) (sq : ServiceQuota) : Quota :=
  { region := region
    serviceCode := svc.code
    serviceName := svc.name
    quotaName := safeString sq.quotaName
    quotaCode := safeString sq.quotaCode
    unit := safeString sq.unit
    adjustable := sq.adjustable
    global := sq.globalQuota
    value := sq.value.getD 0
    usage := 0
    usagePercentage := 0
    hasUsageMetrics := false }

/-- The enrichment sequence of the `buildQuotaList` loop body: the direct
probe first, then CloudWatch only when the probe left the has-usage flag
unset and the quota carries a usage-metric descriptor. -/
def resolveQuotaUsage (env : DirectEnv) (cw : CloudWatchEnv) (sq : ServiceQuota)
    (quota : Quota) : Quota :=
  let q1 := enrichWithDirectAPI env quota
  if q1.hasUsageMetrics = false then
    match sq.usageMetric with
    | some m => enrichWithUsageFromCloudWatch cw m q1
    | none => q1
  else q1

/-- Embeds `buildQuotaList` (internal/aws/quotas.go); the Go map iteration
order is modelled by the given list order. -/
def buildQuotaList (env : DirectEnv) (cw : CloudWatchEnv) (region : String)
    (svc : Service) (quotaMap : List ServiceQuota) : List Quota :=
  quotaMap.map (fun sq => resolveQuotaUsage env cw sq (mkQuota region svc sq))

/-- The `quotaMap` of `getQuotasForService`, modelled as a function from
quota code to the stored definition (a Go map used only via insert and
lookup). -/
def QuotaMap : Type := String → Option ServiceQuota

/-- The insertion loop shared by `fetchDefaultQuotas` and
`fetchAppliedQuotas`: each listed quota with a non-nil code overwrites the
map entry for that code, in listing order. -/
def insertQuotasByCode (m : QuotaMap) (qs : List ServiceQuota) : QuotaMap :=
  qs.foldl (fun m q =>
    match q.quotaCode with
    | some code => fun c => if c = code then some q else m c
    | none => m) m

/-- Embeds `fetchDefaultQuotas` (internal/aws/quotas.go): inserts the
listed default quota definitions into the map. -/
def fetchDefaultQuotas (m : QuotaMap) (listed : List ServiceQuota) : QuotaMap :=
  insertQuotasByCode m listed

/-- Embeds `fetchAppliedQuotas` (internal/aws/quotas.go): inserts the
listed applied quota definitions into the map. -/
def fetchAppliedQuotas (m : QuotaMap) (listed : List ServiceQuota) : QuotaMap :=
  insertQuotasByCode m listed

/-- The merged quota map built in `getQuotasForService`: defaults first,
then applied definitions into the same map. -/
def getQuotasForServiceMap (defaults applied : List ServiceQuota) : QuotaMap :=
  fetchAppliedQuotas (fetchDefaultQuotas (fun _ => none) defaults) applied

/-- The last element of the list whose quota code equals the given code,
tracked in listing order (last write wins in a Go map). -/
def lastWithCodeAux (code : String) (acc : Option ServiceQuota)
    (qs : List ServiceQuota) : Option ServiceQuota :=
  qs.foldl (fun a q => if q.quotaCode = some code then some q else a) acc

/-- The last listed quota definition carrying the given code, if any. -/
def lastWithCode (code : String) (qs : List ServiceQuota) : Option ServiceQuota :=
  lastWithCodeAux code none qs

/-- Embeds `cache.Item` (internal/cache/cache.go). -/
structure CacheItem (α : Type) where
  value : α
  expiresAt : ℤ

/-- Embeds `cache.Cache` (internal/cache/cache.go); the item map is a
function from key to stored item, and instants are integers. -/
structure Cache (α : Type) where
  items : String → Option (CacheItem α)
  ttl : ℤ

/-- Embeds `cache.New`: an empty item map with the configured TTL (the
background sweep only removes already-expired items and is irrelevant to
the read semantics). -/
def Cache.New (α : Type) (ttl : ℤ) : Cache α :=
  { items := fun _ => none, ttl := ttl }

/-- Embeds `Cache.Set`: stores the value with expiry `now + ttl`,
overwriting any existing entry. -/
def Cache.Set (c : Cache α) (now : ℤ) (key : String) (v : α) : Cache α :=
  { c with items := fun k => if k = key then some { value := v, expiresAt := now + c.ttl } else c.items k }

/-- Embeds `Cache.Get`: absent keys and entries with
`time.Now().After(item.ExpiresAt)` are not found. -/
def Cache.Get (c : Cache α) (now : ℤ) (key : String) : Option α :=
  match c.items key with
  | none => none
  | some item => if now > item.expiresAt then none else some item.value

/-- The cache key built in the handler `GetQuotas`:
`"quotas:" + regionParam + ":" + serviceFilter`. -/
def cacheKey (regionParam serviceFilter : String) : String :=
  "quotas:" ++ regionParam ++ ":" ++ serviceFilter

/-- Substring occurrence on character lists (`strings.Contains`). -/
def containsAux (sub : List Char) : List Char → Bool
  | [] => sub.isEmpty
  | c :: cs => sub.isPrefixOf (c :: cs) || containsAux sub cs

/-- Embeds `strings.Contains` on the underlying character lists. -/
def strContains (s sub : String) : Bool :=
  containsAux sub.data s.data

/-- The search predicate of the handler `GetQuotas`: the lowered quota
name, service name, or service code contains the lowered search term. -/
def matchesSearch (searchLower : String) (q : Quota) : Bool :=
  strContains q.quotaName.toLower searchLower ||
  strContains q.serviceName.toLower searchLower ||
  strContains q.serviceCode.toLower searchLower

/-- The post-filter of the handler `GetQuotas`: applied only when the
search term is non-empty, after lowering it. -/
def applySearch (search : String) (quotas : List Quota) : List Quota :=
  if search = "" then quotas
  else quotas.filter (matchesSearch search.toLower)

/-- Embeds the handler `GetQuotas` (internal/handler/api.go): cache lookup
under the search-free key, fetch and store on miss, then the search
post-filter.  The response carries the returned list and the `fromCache`
flag; the fetch outcome is an environment parameter. -/
def getQuotasHandler (c : Cache (List Quota)) (now : ℤ)
    (regionParam serviceFilter search : String)
    (fetched : Except String (List Quota)) :
    Except String (List Quota × Bool) × Cache (List Quota) :=
  let key := cacheKey regionParam serviceFilter
  match c.Get now key with
  | some quotas => (.ok (applySearch search quotas, true), c)
  | none =>
    match fetched with
    | .error e => (.error e, c)
    | .ok quotas => (.ok (applySearch search quotas, false), c.Set now key quotas)

/-- Outbound-call events of the fetch pipeline, for the rate-limiter
discipline: one event per remote call site, plus one event per
`limiter.Wait` acquisition. -/
inductive Event where
  | limiterWait
  | listServicesPage
  | listDefaultQuotasPage
  | listAppliedQuotasPage
  | describeRegionsCall
  | directProbeCall
  | metricQueryCall
deriving DecidableEq

/-- The events that reach the primary quota-listing API: the service
listing and each page of the default and applied quota listings. -/
def isPrimaryQuotaAPI : Event → Bool
  | Event.listServicesPage => true
  | Event.listDefaultQuotasPage => true
  | Event.listAppliedQuotasPage => true
  | _ => false

/-- A paginator loop guarded by the limiter: each page request is
immediately preceded by a `limiter.Wait` acquisition. -/
def pagesTrace (e : Event) : Nat → List Event
  | 0 => []
  | n + 1 => Event.limiterWait :: e :: pagesTrace e n

/-- The call trace of `GetServices`: one acquisition at function entry,
then one acquisition before each page of the service listing. -/
def getServicesTrace (pages : Nat) : List Event :=
  Event.limiterWait :: pagesTrace Event.listServicesPage pages

/-- The call trace of `fetchDefaultQuotas`: one acquisition before each
page of the default quota listing. -/
def fetchDefaultQuotasTrace (pages : Nat) : List Event :=
  pagesTrace Event.listDefaultQuotasPage pages

/-- The call trace of `fetchAppliedQuotas`: one acquisition before each
page of the applied quota listing. -/
def fetchAppliedQuotasTrace (pages : Nat) : List Event :=
  pagesTrace Event.listAppliedQuotasPage pages

/-- The call trace of `GetRegions` (internal/aws/regions.go): a single
unguarded `DescribeRegions` call. -/
def getRegionsTrace : List Event :=
  [Event.describeRegionsCall]

/-- Whether the direct probe and the CloudWatch query fire for one quota
of the `buildQuotaList` loop. -/
structure QuotaCallFlags where
  probeCalled : Bool
  metricCalled : Bool

/-- The call trace of one `buildQuotaList` iteration: an optional direct
probe followed by an optional CloudWatch query, neither guarded by the
limiter. -/
def quotaUsageTrace (p : QuotaCallFlags) : List Event :=
  (if p.probeCalled then [Event.directProbeCall] else []) ++
  (if p.metricCalled then [Event.metricQueryCall] else [])

/-- Shape of one `getQuotasForService` call: page counts of the two
listings and the per-quota probe/query flags. -/
structure ServiceCallShape where
  defaultPages : Nat
  appliedPages : Nat
  quotas : List QuotaCallFlags

/-- The call trace of `getQuotasForService`: default listing pages, then
applied listing pages, then the per-quota usage calls. -/
def getQuotasForServiceTrace (s : ServiceCallShape) : List Event :=
  fetchDefaultQuotasTrace s.defaultPages ++
  fetchAppliedQuotasTrace s.appliedPages ++
  s.quotas.flatMap quotaUsageTrace

/-- Shape of one `GetQuotasForRegion` call. -/
structure RegionCallShape where
  servicePages : Nat
  services : List ServiceCallShape

/-- The call trace of `GetQuotasForRegion`: the service listing, then each
surviving service's quota fetch. -/
def getQuotasForRegionTrace (r : RegionCallShape) : List Event :=
  getServicesTrace r.servicePages ++
  r.services.flatMap getQuotasForServiceTrace

/-- Rate-limiter discipline of a trace: a primary quota-listing call is
always immediately preceded by a limiter acquisition, and in particular
never occurs first. -/
def SafeTrace (t : List Event) : Prop :=
  List.Chain' (fun a b => isPrimaryQuotaAPI b = true → a = Event.limiterWait) t ∧
  ∀ e ∈ t.head?, isPrimaryQuotaAPI e = false

theorem dedupKey_setGlobalRegion (q : Quota) : dedupKey (setGlobalRegion q) = dedupKey q := rfl

theorem global_setGlobalRegion (q : Quota) : (setGlobalRegion q).global = q.global := rfl

theorem region_setGlobalRegion (q : Quota) : (setGlobalRegion q).region = "global" := rfl

theorem dedupGo_global_mem (qs : List Quota) : ∀ (seen : List String) (q' : Quota),
    q' ∈ dedupGo seen qs → q'.global = true →
    dedupKey q' ∉ seen ∧ q'.region = "global" ∧
      ∃ q₀, qs.find? (fun r => r.global && (dedupKey r == dedupKey q')) = some q₀ ∧
        q' = setGlobalRegion q₀ := by
  induction qs with
  | nil => intro seen q' h; simp [dedupGo] at h
  | cons q rest ih =>
    intro seen q' hmem hg
    cases hqg : q.global with
    | true =>
      by_cases hin : dedupKey q ∈ seen
      · simp only [dedupGo, hqg, if_true] at hmem
        rw [if_pos hin] at hmem
        obtain ⟨hnot, hreg, q₀, hfind, heq⟩ := ih seen q' hmem hg
        refine ⟨hnot, hreg, q₀, ?_, heq⟩
        rw [List.find?_cons_of_neg _ ?_, hfind]
        simp only [hqg, Bool.true_and]
        intro hkey
        exact hnot ((eq_of_beq hkey) ▸ hin)
      · simp only [dedupGo, hqg, if_true] at hmem
        rw [if_neg hin] at hmem
        rcases List.mem_cons.mp hmem with heq | hmem'
        · subst heq
          refine ⟨by rw [dedupKey_setGlobalRegion]; exact hin,
            region_setGlobalRegion q, q, ?_, rfl⟩
          rw [List.find?_cons_of_pos]
          simp [hqg, dedupKey_setGlobalRegion]
        · obtain ⟨hnot, hreg, q₀, hfind, heq⟩ := ih _ q' hmem' hg
          have hne : dedupKey q' ≠ dedupKey q := fun h => hnot (by simp [h])
          refine ⟨fun h => hnot (List.mem_cons_of_mem _ h), hreg, q₀, ?_, heq⟩
          rw [List.find?_cons_of_neg _ ?_, hfind]
          simp only [hqg, Bool.true_and]
          intro hkey
          exact hne ((eq_of_beq hkey).symm)
    | false =>
      simp only [dedupGo, hqg, Bool.false_eq_true, if_false] at hmem
      rcases List.mem_cons.mp hmem with heq | hmem'
      · subst heq; rw [hqg] at hg; exact absurd hg (by simp)
      · obtain ⟨hnot, hreg, q₀, hfind, heq⟩ := ih seen q' hmem' hg
        refine ⟨hnot, hreg, q₀, ?_, heq⟩
        rw [List.find?_cons_of_neg _ (by simp [hqg]), hfind]

theorem dedupGo_globalKeys_nodup (qs : List Quota) : ∀ (seen : List String),
    (((dedupGo seen qs).filter (fun q => q.global)).map dedupKey).Nodup := by
  induction qs with
  | nil => intro seen; simp [dedupGo]
  | cons q rest ih =>
    intro seen
    cases hqg : q.global with
    | true =>
      by_cases hin : dedupKey q ∈ seen
      · simp only [dedupGo, hqg, if_true]
        rw [if_pos hin]
        exact ih seen
      · simp only [dedupGo, hqg, if_true]
        rw [if_neg hin]
        rw [List.filter_cons_of_pos (by simp [global_setGlobalRegion, hqg])]
        simp only [List.map_cons, List.nodup_cons]
        refine ⟨?_, ih _⟩
        intro hmemmap
        obtain ⟨q'', hq''mem, hq''key⟩ := List.mem_map.mp hmemmap
        have hq''g : q''.global = true := by
          simpa using (List.mem_filter.mp hq''mem).2
        have hq''in : q'' ∈ dedupGo (dedupKey q :: seen) rest :=
          (List.mem_filter.mp hq''mem).1
        obtain ⟨hnot, _, _⟩ := dedupGo_global_mem rest _ q'' hq''in hq''g
        exact hnot (by rw [hq''key, dedupKey_setGlobalRegion]; exact List.mem_cons_self _ _)
    | false =>
      simp only [dedupGo, hqg, Bool.false_eq_true, if_false]
      rw [List.filter_cons_of_neg (by simp [hqg])]
      exact ih seen

theorem dedupGo_filter_nonglobal (qs : List Quota) : ∀ (seen : List String),
    (dedupGo seen qs).filter (fun q => !q.global) = qs.filter (fun q => !q.global) := by
  induction qs with
  | nil => intro seen; simp [dedupGo]
  | cons q rest ih =>
    intro seen
    cases hqg : q.global with
    | true =>
      by_cases hin : dedupKey q ∈ seen
      · simp only [dedupGo, hqg, if_true]
        rw [if_pos hin, ih seen, List.filter_cons_of_neg (by simp [hqg])]
      · simp only [dedupGo, hqg, if_true]
        rw [if_neg hin]
        rw [List.filter_cons_of_neg (by simp [global_setGlobalRegion, hqg]), ih,
          List.filter_cons_of_neg (by simp [hqg])]
    | false =>
      simp only [dedupGo, hqg, Bool.false_eq_true, if_false]
      rw [List.filter_cons_of_pos (by simp [hqg]), ih,
        List.filter_cons_of_pos (by simp [hqg])]

theorem dedupGo_count_nonglobal (q : Quota) (hq : q.global = false) (qs : List Quota) :
    ∀ (seen : List String), (dedupGo seen qs).count q = qs.count q := by
  induction qs with
  | nil => intro seen; rfl
  | cons r rest ih =>
    intro seen
    cases hrg : r.global with
    | true =>
      have hne : (r == q) = false := by
        simp only [beq_eq_false_iff_ne, ne_eq]
        intro h; rw [← h, hrg] at hq; exact absurd hq (by simp)
      by_cases hin : dedupKey r ∈ seen
      · simp only [dedupGo, hrg, if_true]
        rw [if_pos hin, ih seen, List.count_cons, hne]
        simp
      · have hne' : (setGlobalRegion r == q) = false := by
          simp only [beq_eq_false_iff_ne, ne_eq]
          intro h
          have : (setGlobalRegion r).global = q.global := by rw [h]
          rw [global_setGlobalRegion, hrg, hq] at this
          exact absurd this (by simp)
        simp only [dedupGo, hrg, if_true]
        rw [if_neg hin, List.count_cons, hne', List.count_cons, hne, ih]
    | false =>
      simp only [dedupGo, hrg, Bool.false_eq_true, if_false]
      rw [List.count_cons, List.count_cons, ih]

/-- C1: for every input list, `deduplicateGlobalQuotas` (and hence the
quota list of every `FetchResult` returned by `GetQuotasForAllRegions`)
retains at most one global quota per (service code, quota code) key, the
retained one is the first-seen instance with its region rewritten to
"global", and non-global quotas pass through unchanged with their
multiplicities preserved. -/
theorem C1_global_dedup_invariant (qs : List Quota) :
    (((deduplicateGlobalQuotas qs).filter (fun q => q.global)).map dedupKey).Nodup
    ∧ (∀ q' ∈ deduplicateGlobalQuotas qs, q'.global = true →
        q'.region = "global" ∧
        ∃ q₀, qs.find? (fun r => r.global && (dedupKey r == dedupKey q')) = some q₀ ∧
          q' = setGlobalRegion q₀)
    ∧ (deduplicateGlobalQuotas qs).filter (fun q => !q.global)
        = qs.filter (fun q => !q.global)
    ∧ (∀ q : Quota, q.global = false →
        (deduplicateGlobalQuotas qs).count q = qs.count q)
    ∧ (∀ (fetch : String → Except String (List Quota)) (regions : List String),
        ((GetQuotasForAllRegions fetch regions).1).quotas
          = deduplicateGlobalQuotas (collectRegionQuotas fetch regions)) := by
  refine ⟨dedupGo_globalKeys_nodup qs [], ?_, dedupGo_filter_nonglobal qs [],
    fun q hq => dedupGo_count_nonglobal q hq qs [], fun _ _ => rfl⟩
  intro q' hmem hg
  obtain ⟨_, hreg, hfind⟩ := dedupGo_global_mem qs [] q' hmem hg
  exact ⟨hreg, hfind⟩

/-- A global IAM quota observed in us-east-1, used as a witness input. -/
def wGlobalA : Quota :=
  { region := "us-east-1", serviceCode := "iam", serviceName := "IAM"
    quotaName := "Roles per account", quotaCode := "L-FE177D64"
    value := 1000, usage := 0, usagePercentage := 0, hasUsageMetrics := false
    unit := "None", adjustable := true, global := true }

/-- The same global quota observed again from eu-west-1. -/
def wGlobalB : Quota := { wGlobalA with region := "eu-west-1" }

/-- A region-scoped quota, used as a witness input. -/
def wLocal : Quota :=
  { region := "us-east-1", serviceCode := "ec2", serviceName := "EC2"
    quotaName := "VPCs per Region", quotaCode := "L-F678F1CE"
    value := 5, usage := 0, usagePercentage := 0, hasUsageMetrics := false
    unit := "None", adjustable := true, global := false }

theorem C1_witness :
    (setGlobalRegion wGlobalA).region = "global"
    ∧ (∃ q₀, ([wGlobalA, wLocal, wGlobalB]).find?
          (fun r => r.global && (dedupKey r == dedupKey (setGlobalRegion wGlobalA)))
          = some q₀ ∧ setGlobalRegion wGlobalA = setGlobalRegion q₀)
    ∧ (deduplicateGlobalQuotas [wGlobalA, wLocal, wGlobalB]).count wLocal
        = ([wGlobalA, wLocal, wGlobalB]).count wLocal := by
  refine ⟨?_, ?_, ?_⟩
  · exact ((C1_global_dedup_invariant [wGlobalA, wLocal, wGlobalB]).2.1
      (setGlobalRegion wGlobalA) (by decide) (by decide)).1
  · exact ((C1_global_dedup_invariant [wGlobalA, wLocal, wGlobalB]).2.1
      (setGlobalRegion wGlobalA) (by decide) (by decide)).2
  · exact (C1_global_dedup_invariant [wGlobalA, wLocal, wGlobalB]).2.2.2.1
      wLocal (by decide)

/-- The cause string of a failed per-region fetch. -/
def exceptCause : Except String (List Quota) → String
  | .error e => e
  | .ok _ => ""

theorem collectWarnings_eq (fetch : String → Except String (List Quota)) :
    ∀ regions : List String,
    collectWarnings fetch regions
      = (regions.filter (fun r => !(fetch r).toOption.isSome)).map
          (fun r => regionWarning r (exceptCause (fetch r))) := by
  intro regions
  induction regions with
  | nil => rfl
  | cons r rs ih =>
    cases hf : fetch r with
    | error e =>
      have hp : (!(fetch r).toOption.isSome) = true := by rw [hf]; rfl
      have hhead : collectWarnings fetch (r :: rs)
          = regionWarning r e :: collectWarnings fetch rs := by
        simp [collectWarnings, List.filterMap_cons, hf]
      rw [hhead, List.filter_cons, if_pos hp, List.map_cons, ih, hf]
      simp [exceptCause]
    | ok v =>
      have hp : ¬((!(fetch r).toOption.isSome) = true) := by
        rw [hf]; simp [Except.toOption]
      have hhead : collectWarnings fetch (r :: rs) = collectWarnings fetch rs := by
        simp [collectWarnings, List.filterMap_cons, hf]
      rw [hhead, List.filter_cons, if_neg hp, ih]

/-- C3 counterexample: with regions A, B, C where only region B fails, the
single warning is the code's "Failed to fetch quotas for region B: boom",
which does not start with the claimed lowercase "failed to fetch quotas
for region". -/
theorem C3_counterexample :
    (GetQuotasForAllRegions
        (fun r => if r = "B" then .error "boom" else .ok []) ["A", "B", "C"]).1.warnings
      = ["Failed to fetch quotas for region B: boom"]
    ∧ ∀ w ∈ (GetQuotasForAllRegions
        (fun r => if r = "B" then .error "boom" else .ok []) ["A", "B", "C"]).1.warnings,
      ("failed to fetch quotas for region B").data.isPrefixOf w.data = false := by
  constructor
  · rfl
  · decide

/-- C3 (amended): a failed region never fails the whole call — the
returned error is always nil, the quota list is the deduplicated
concatenation of the successful regions' lists, and the warnings are
exactly one string "Failed to fetch quotas for region R: <cause>" per
failed region, in region order. -/
theorem C3_partial_failure_isolation
    (fetch : String → Except String (List Quota)) (regions : List String) :
    (GetQuotasForAllRegions fetch regions).2 = none
    ∧ (GetQuotasForAllRegions fetch regions).1.quotas
        = deduplicateGlobalQuotas ((regions.filterMap (fun r => (fetch r).toOption)).flatten)
    ∧ (GetQuotasForAllRegions fetch regions).1.warnings
        = (regions.filter (fun r => !(fetch r).toOption.isSome)).map
            (fun r => regionWarning r (exceptCause (fetch r))) :=
  ⟨rfl, rfl, collectWarnings_eq fetch regions⟩

theorem Cache.get_set {α : Type} (c : Cache α) (now t : ℤ) (key : String) (v : α) :
    (c.Set now key v).Get t key = if now + c.ttl < t then none else some v := by
  simp only [Cache.Set, Cache.Get]
  rw [if_pos trivial]

/-- C4 counterexample: a value set at time 0 with TTL 10 is still found at
time 10 = T0 + D, where the claim requires found = false. -/
theorem C4_counterexample :
    (10 : ℤ) ≥ 0 + (10 : ℤ)
    ∧ ((Cache.New ℕ 10).Set 0 "k" 42).Get 10 "k" = some 42 := by
  constructor
  · decide
  · rfl

/-- C4 (amended): a value set at time T0 with TTL D is found by `Get` at
any time up to and including T0 + D, and not found at any time strictly
after T0 + D; the expiry comparison happens on the read itself. -/
theorem C4_cache_ttl_boundary {α : Type} (c : Cache α) (now : ℤ) (key : String)
    (v : α) (t : ℤ) :
    (t ≤ now + c.ttl → (c.Set now key v).Get t key = some v)
    ∧ (now + c.ttl < t → (c.Set now key v).Get t key = none) := by
  refine ⟨fun h => ?_, fun h => ?_⟩
  · rw [Cache.get_set, if_neg (not_lt.mpr h)]
  · rw [Cache.get_set, if_pos h]

theorem C4_witness :
    ((Cache.New ℕ 10).Set 0 "k" 42).Get 9 "k" = some 42
    ∧ ((Cache.New ℕ 10).Set 0 "k" 42).Get 11 "k" = none :=
  ⟨(C4_cache_ttl_boundary (Cache.New ℕ 10) 0 "k" 42 9).1 (by decide),
   (C4_cache_ttl_boundary (Cache.New ℕ 10) 0 "k" 42 11).2 (by decide)⟩

/-- The per-quota invariant of the spec: the percentage is the derived
ratio whenever usage data exists and the limit is positive, and usage and
percentage are zero whenever no usage data exists. -/
def QuotaInv (q : Quota) : Prop :=
  (q.hasUsageMetrics = true → 0 < q.value →
    q.usagePercentage = q.usage / q.value * 100)
  ∧ (q.hasUsageMetrics = false → q.usage = 0 ∧ q.usagePercentage = 0)

theorem quotaInv_of_pristine (q : Quota) (h3 : q.hasUsageMetrics = false)
    (h1 : q.usage = 0) (h2 : q.usagePercentage = 0) : QuotaInv q := by
  constructor
  · intro h; rw [h3] at h; simp at h
  · intro; exact ⟨h1, h2⟩

theorem enrichWithDirectAPI_of_not_set (env : DirectEnv) (q : Quota) :
    (enrichWithDirectAPI env q).hasUsageMetrics = false → enrichWithDirectAPI env q = q := by
  unfold enrichWithDirectAPI
  cases GetUsageDirectly env q with
  | error e => intro; rfl
  | ok p =>
    obtain ⟨usage, supported⟩ := p
    cases supported with
    | true =>
      intro h
      simp only [if_true] at h
      by_cases hv : ({ q with hasUsageMetrics := true, usage := usage } : Quota).value > 0
      · rw [if_pos hv] at h
        exact absurd h (by simp)
      · rw [if_neg hv] at h
        exact absurd h (by simp)
    | false => intro; rfl

theorem enrichWithDirectAPI_inv (env : DirectEnv) (q : Quota)
    (h3 : q.hasUsageMetrics = false) (h1 : q.usage = 0) (h2 : q.usagePercentage = 0) :
    QuotaInv (enrichWithDirectAPI env q) := by
  unfold enrichWithDirectAPI
  cases GetUsageDirectly env q with
  | error e => exact quotaInv_of_pristine q h3 h1 h2
  | ok p =>
    obtain ⟨usage, supported⟩ := p
    cases supported with
    | true =>
      simp only [if_true]
      by_cases hv : ({ q with hasUsageMetrics := true, usage := usage } : Quota).value > 0
      · rw [if_pos hv]
        exact ⟨fun _ _ => rfl, fun h => absurd h (by simp)⟩
      · rw [if_neg hv]
        refine ⟨fun _ hpos => absurd hpos hv, fun h => absurd h (by simp)⟩
    | false => exact quotaInv_of_pristine q h3 h1 h2

theorem updateQuotaUsage_inv (q : Quota) (v : ℚ) :
    QuotaInv (updateQuotaUsage { q with hasUsageMetrics := true } v) := by
  unfold updateQuotaUsage
  by_cases hv : ({ q with hasUsageMetrics := true, usage := v } : Quota).value > 0
  · rw [if_pos hv]
    exact ⟨fun _ _ => rfl, fun h => absurd h (by simp)⟩
  · rw [if_neg hv]
    exact ⟨fun _ hpos => absurd hpos hv, fun h => absurd h (by simp)⟩

theorem processCloudWatchResult_inv (dps : List Datapoint) (stat : String) (q : Quota)
    (h3 : q.hasUsageMetrics = false) (h1 : q.usage = 0) (h2 : q.usagePercentage = 0) :
    QuotaInv (processCloudWatchResult dps stat q) := by
  unfold processCloudWatchResult
  by_cases hlen : dps.length = 0
  · rw [if_pos hlen]
    exact quotaInv_of_pristine q h3 h1 h2
  · rw [if_neg hlen]
    cases findLatestDatapoint dps with
    | none => exact quotaInv_of_pristine q h3 h1 h2
    | some d => exact updateQuotaUsage_inv q (extractValueFromDatapoint d stat)

theorem enrichWithUsageFromCloudWatch_inv (cw : CloudWatchEnv) (m : MetricInfo)
    (q : Quota)
    (h3 : q.hasUsageMetrics = false) (h1 : q.usage = 0) (h2 : q.usagePercentage = 0) :
    QuotaInv (enrichWithUsageFromCloudWatch cw m q) := by
  have hqinv : QuotaInv q := quotaInv_of_pristine q h3 h1 h2
  unfold enrichWithUsageFromCloudWatch
  split
  · exact hqinv
  · show QuotaInv
      (match cw m (getStatisticFromRecommendation m.metricStatisticRecommendation) with
      | Except.error _ => q
      | Except.ok result =>
        if result.length = 0 then q
        else processCloudWatchResult result
          (getStatisticFromRecommendation m.metricStatisticRecommendation) q)
    split
    · exact hqinv
    · split
      · exact hqinv
      · exact processCloudWatchResult_inv _ _ q h3 h1 h2

theorem mkQuota_pristine (region : String) (svc : Service) (sq : ServiceQuota) :
    (mkQuota region svc sq).hasUsageMetrics = false
    ∧ (mkQuota region svc sq).usage = 0
    ∧ (mkQuota region svc sq).usagePercentage = 0 :=
  ⟨rfl, rfl, rfl⟩

/-- C2: every quota record produced by the per-quota enrichment pipeline
satisfies the usage-percentage invariant: when usage data exists and the
limit is positive, the percentage equals usage / limit * 100 (it is only
ever derived from those two fields), and when no usage data exists both
usage and percentage are zero. -/
theorem C2_usage_percentage_invariant (env : DirectEnv) (cw : CloudWatchEnv)
    (region : String) (svc : Service) (sq : ServiceQuota) :
    QuotaInv (resolveQuotaUsage env cw sq (mkQuota region svc sq)) := by
  obtain ⟨h3, h1, h2⟩ := mkQuota_pristine region svc sq
  unfold resolveQuotaUsage
  by_cases hset : (enrichWithDirectAPI env (mkQuota region svc sq)).hasUsageMetrics = false
  · rw [if_pos hset]
    have heq := enrichWithDirectAPI_of_not_set env (mkQuota region svc sq) hset
    cases sq.usageMetric with
    | some m =>
      rw [heq]
      exact enrichWithUsageFromCloudWatch_inv cw m _ h3 h1 h2
    | none =>
      rw [heq]
      exact quotaInv_of_pristine _ h3 h1 h2
  · rw [if_neg hset]
    exact enrichWithDirectAPI_inv env _ h3 h1 h2

theorem C2_witness :
    (resolveQuotaUsage
        { loadConfigOk := true, handlerOutcome := fun _ => .ok 5 }
        (fun _ _ => .error "unused")
        { quotaCode := some "L-1194D53C", quotaName := some "Clusters"
          unit := some "None", value := some 100, adjustable := true
          globalQuota := false, usageMetric := none }
        (mkQuota "us-east-1" { code := "eks", name := "EKS" }
          { quotaCode := some "L-1194D53C", quotaName := some "Clusters"
            unit := some "None", value := some 100, adjustable := true
            globalQuota := false, usageMetric := none })).usagePercentage
      = (resolveQuotaUsage
        { loadConfigOk := true, handlerOutcome := fun _ => .ok 5 }
        (fun _ _ => .error "unused")
        { quotaCode := some "L-1194D53C", quotaName := some "Clusters"
          unit := some "None", value := some 100, adjustable := true
          globalQuota := false, usageMetric := none }
        (mkQuota "us-east-1" { code := "eks", name := "EKS" }
          { quotaCode := some "L-1194D53C", quotaName := some "Clusters"
            unit := some "None", value := some 100, adjustable := true
            globalQuota := false, usageMetric := none })).usage
        / (resolveQuotaUsage
        { loadConfigOk := true, handlerOutcome := fun _ => .ok 5 }
        (fun _ _ => .error "unused")
        { quotaCode := some "L-1194D53C", quotaName := some "Clusters"
          unit := some "None", value := some 100, adjustable := true
          globalQuota := false, usageMetric := none }
        (mkQuota "us-east-1" { code := "eks", name := "EKS" }
          { quotaCode := some "L-1194D53C", quotaName := some "Clusters"
            unit := some "None", value := some 100, adjustable := true
            globalQuota := false, usageMetric := none })).value * 100 :=
  (C2_usage_percentage_invariant
    { loadConfigOk := true, handlerOutcome := fun _ => .ok 5 }
    (fun _ _ => .error "unused") "us-east-1" { code := "eks", name := "EKS" }
    { quotaCode := some "L-1194D53C", quotaName := some "Clusters"
      unit := some "None", value := some 100, adjustable := true
      globalQuota := false, usageMetric := none }).1 (by decide) (by decide)

/-- C5: the resolver attempts the direct probe first and stops at the
first success — when the probe set the has-usage flag the CloudWatch
strategy is never consulted (the result does not depend on the CloudWatch
environment), the metric lookup runs only when the flag is unset and a
usage-metric descriptor exists, and the probe itself reports
not-supported, without consulting any probe environment, when the quota
code is absent from the dispatch table or its declared service code
differs from the quota's. -/
theorem C5_strict_priority_order (env : DirectEnv) (cw cw' : CloudWatchEnv)
    (sq : ServiceQuota) (q : Quota) :
    ((enrichWithDirectAPI env q).hasUsageMetrics = true →
      resolveQuotaUsage env cw sq q = enrichWithDirectAPI env q)
    ∧ ((enrichWithDirectAPI env q).hasUsageMetrics = true →
      resolveQuotaUsage env cw sq q = resolveQuotaUsage env cw' sq q)
    ∧ ((enrichWithDirectAPI env q).hasUsageMetrics = false →
      ∀ m, sq.usageMetric = some m →
        resolveQuotaUsage env cw sq q
          = enrichWithUsageFromCloudWatch cw m (enrichWithDirectAPI env q))
    ∧ (sq.usageMetric = none → resolveQuotaUsage env cw sq q = enrichWithDirectAPI env q)
    ∧ (lookupHandlerServiceCode q.quotaCode = none →
        ∀ env' : DirectEnv, GetUsageDirectly env' q = .ok (0, false))
    ∧ (∀ svcCode, lookupHandlerServiceCode q.quotaCode = some svcCode →
        svcCode ≠ q.serviceCode →
        ∀ env' : DirectEnv, GetUsageDirectly env' q = .ok (0, false)) := by
  refine ⟨?_, ?_, ?_, ?_, ?_, ?_⟩
  · intro hset
    simp only [resolveQuotaUsage, hset]
    simp
  · intro hset
    simp only [resolveQuotaUsage, hset]
    simp
  · intro hset m hm
    simp only [resolveQuotaUsage, hset, hm]
    simp
  · intro hm
    simp only [resolveQuotaUsage, hm]
    simp
  · intro hnone env'
    simp [GetUsageDirectly, hnone]
  · intro svcCode hsome hne env'
    simp [GetUsageDirectly, hsome, hne]

/-- Witness fixture: a VPC quota whose code has a matching dispatch entry. -/
def c5Sq : ServiceQuota :=
  { quotaCode := some "L-F678F1CE", quotaName := some "VPCs per Region"
    unit := some "None", value := some 5, adjustable := true
    globalQuota := false
    usageMetric := some
      { metricNamespace := some "AWS/EC2", metricName := some "VpcCount"
        metricDimensions := [], metricStatisticRecommendation := some "Maximum" } }

/-- Witness fixture: the quota record built from `c5Sq`. -/
def c5Quota : Quota := mkQuota "us-east-1" { code := "vpc", name := "Amazon VPC" } c5Sq

/-- Witness fixture: a probe environment that succeeds with usage 3. -/
def c5Env : DirectEnv := { loadConfigOk := true, handlerOutcome := fun _ => .ok 3 }

/-- Witness fixture: a quota whose code has no dispatch entry. -/
def c5NoEntry : Quota :=
  mkQuota "us-east-1" { code := "ec2", name := "EC2" }
    { quotaCode := some "L-0000FFFF", quotaName := none, unit := none
      value := none, adjustable := false, globalQuota := false, usageMetric := none }

/-- Witness fixture: an EKS quota code carried by an EC2 quota record. -/
def c5Mismatch : Quota :=
  mkQuota "us-east-1" { code := "ec2", name := "EC2" }
    { quotaCode := some "L-1194D53C", quotaName := none, unit := none
      value := none, adjustable := false, globalQuota := false, usageMetric := none }

theorem C5_witness :
    resolveQuotaUsage c5Env (fun _ _ => .ok []) c5Sq c5Quota
      = enrichWithDirectAPI c5Env c5Quota
    ∧ GetUsageDirectly c5Env c5NoEntry = .ok (0, false)
    ∧ GetUsageDirectly c5Env c5Mismatch = .ok (0, false) := by
  refine ⟨?_, ?_, ?_⟩
  · exact (C5_strict_priority_order c5Env (fun _ _ => .ok []) (fun _ _ => .ok [])
      c5Sq c5Quota).1 (by decide)
  · exact (C5_strict_priority_order c5Env (fun _ _ => .ok []) (fun _ _ => .ok [])
      c5Sq c5NoEntry).2.2.2.2.1 (by decide) c5Env
  · exact (C5_strict_priority_order c5Env (fun _ _ => .ok []) (fun _ _ => .ok [])
      c5Sq c5Mismatch).2.2.2.2.2 "eks" (by decide) (by decide) c5Env

/-- C10: when the dispatch entry matches and the probe succeeds with a
count of exactly 0, `GetUsageDirectly` still reports supported = true, so
the record gets has-usage-data = true with usage 0 and percentage 0 —
measured-as-zero, not no-data — and the CloudWatch fallback is never
attempted (the result is independent of the CloudWatch environment). -/
theorem C10_zero_usage_supported (env : DirectEnv) (cw cw' : CloudWatchEnv)
    (region : String) (svc : Service) (sq : ServiceQuota)
    (hlook : lookupHandlerServiceCode (mkQuota region svc sq).quotaCode
        = some (mkQuota region svc sq).serviceCode)
    (hcfg : env.loadConfigOk = true)
    (hout : env.handlerOutcome (mkQuota region svc sq).quotaCode = .ok 0) :
    GetUsageDirectly env (mkQuota region svc sq) = .ok (0, true)
    ∧ (resolveQuotaUsage env cw sq (mkQuota region svc sq)).hasUsageMetrics = true
    ∧ (resolveQuotaUsage env cw sq (mkQuota region svc sq)).usage = 0
    ∧ (resolveQuotaUsage env cw sq (mkQuota region svc sq)).usagePercentage = 0
    ∧ resolveQuotaUsage env cw sq (mkQuota region svc sq)
        = resolveQuotaUsage env cw' sq (mkQuota region svc sq) := by
  have hdirect : GetUsageDirectly env (mkQuota region svc sq) = .ok (0, true) := by
    simp [GetUsageDirectly, hlook, hcfg, hout]
  have hfields : (enrichWithDirectAPI env (mkQuota region svc sq)).hasUsageMetrics = true
      ∧ (enrichWithDirectAPI env (mkQuota region svc sq)).usage = 0
      ∧ (enrichWithDirectAPI env (mkQuota region svc sq)).usagePercentage = 0 := by
    simp only [enrichWithDirectAPI, hdirect]
    rw [if_pos trivial]
    split
    · exact ⟨rfl, rfl,
        show (0 : ℚ) / (mkQuota region svc sq).value * 100 = 0 by
          rw [zero_div, zero_mul]⟩
    · exact ⟨rfl, rfl, rfl⟩
  have hskip : resolveQuotaUsage env cw sq (mkQuota region svc sq)
      = enrichWithDirectAPI env (mkQuota region svc sq) := by
    simp only [resolveQuotaUsage, hfields.1]
    simp
  have hskip' : resolveQuotaUsage env cw' sq (mkQuota region svc sq)
      = enrichWithDirectAPI env (mkQuota region svc sq) := by
    simp only [resolveQuotaUsage, hfields.1]
    simp
  exact ⟨hdirect, by rw [hskip]; exact hfields.1, by rw [hskip]; exact hfields.2.1,
    by rw [hskip]; exact hfields.2.2, by rw [hskip, hskip']⟩

/-- Witness fixture: an EKS clusters quota with a matching dispatch entry
and a usage-metric descriptor. -/
def c10Sq : ServiceQuota :=
  { quotaCode := some "L-1194D53C", quotaName := some "Clusters"
    unit := some "None", value := some 100, adjustable := true
    globalQuota := false
    usageMetric := some
      { metricNamespace := some "AWS/Usage", metricName := some "ResourceCount"
        metricDimensions := [("Service", "EKS")]
        metricStatisticRecommendation := some "Maximum" } }

/-- Witness fixture: a probe environment that measures exactly zero. -/
def c10Env : DirectEnv := { loadConfigOk := true, handlerOutcome := fun _ => .ok 0 }

theorem C10_witness :
    GetUsageDirectly c10Env (mkQuota "us-east-1" { code := "eks", name := "EKS" } c10Sq)
      = .ok (0, true)
    ∧ (resolveQuotaUsage c10Env (fun _ _ => .ok [])
        c10Sq (mkQuota "us-east-1" { code := "eks", name := "EKS" } c10Sq)).hasUsageMetrics
      = true
    ∧ (resolveQuotaUsage c10Env (fun _ _ => .ok [])
        c10Sq (mkQuota "us-east-1" { code := "eks", name := "EKS" } c10Sq)).usage = 0
    ∧ (resolveQuotaUsage c10Env (fun _ _ => .ok [])
        c10Sq (mkQuota "us-east-1" { code := "eks", name := "EKS" } c10Sq)).usagePercentage
      = 0 := by
  obtain ⟨h1, h2, h3, h4, _⟩ := C10_zero_usage_supported c10Env
    (fun _ _ => .ok []) (fun _ _ => .error "unused") "us-east-1"
    { code := "eks", name := "EKS" } c10Sq (by decide) rfl rfl
  exact ⟨h1, h2, h3, h4⟩

theorem pickLatest_mem (ds : List Datapoint) : ∀ d : Datapoint,
    pickLatest d ds = d ∨ pickLatest d ds ∈ ds := by
  induction ds with
  | nil => intro d; left; rfl
  | cons e ds ih =>
    intro d
    show pickLatest (if e.timestamp > d.timestamp then e else d) ds = d
      ∨ pickLatest (if e.timestamp > d.timestamp then e else d) ds ∈ e :: ds
    rcases ih (if e.timestamp > d.timestamp then e else d) with h | h
    · rw [h]
      split
      · right; exact List.mem_cons_self _ _
      · left; rfl
    · right; exact List.mem_cons_of_mem _ h

theorem pickLatest_ge (ds : List Datapoint) : ∀ d : Datapoint,
    d.timestamp ≤ (pickLatest d ds).timestamp
    ∧ ∀ d' ∈ ds, d'.timestamp ≤ (pickLatest d ds).timestamp := by
  induction ds with
  | nil => intro d; exact ⟨le_refl _, by simp⟩
  | cons e ds ih =>
    intro d
    obtain ⟨h1, h2⟩ := ih (if e.timestamp > d.timestamp then e else d)
    have hacc : d.timestamp ≤ (if e.timestamp > d.timestamp then e else d).timestamp
        ∧ e.timestamp ≤ (if e.timestamp > d.timestamp then e else d).timestamp := by
      split
      · next hgt => exact ⟨le_of_lt hgt, le_refl _⟩
      · next hng => exact ⟨le_refl _, not_lt.mp hng⟩
    refine ⟨le_trans hacc.1 h1, ?_⟩
    intro d' hd'
    rcases List.mem_cons.mp hd' with rfl | hmem
    · exact le_trans hacc.2 h1
    · exact h2 d' hmem

theorem findLatestDatapoint_spec (dps : List Datapoint) (d : Datapoint)
    (h : findLatestDatapoint dps = some d) :
    d ∈ dps ∧ ∀ d' ∈ dps, d'.timestamp ≤ d.timestamp := by
  cases dps with
  | nil => simp [findLatestDatapoint] at h
  | cons e ds =>
    simp only [findLatestDatapoint, Option.some.injEq] at h
    subst h
    constructor
    · rcases pickLatest_mem ds e with h | h
      · rw [h]; exact List.mem_cons_self _ _
      · exact List.mem_cons_of_mem _ h
    · intro d' hd'
      obtain ⟨h1, h2⟩ := pickLatest_ge ds e
      rcases List.mem_cons.mp hd' with rfl | hmem
      · exact h1
      · exact h2 d' hmem

/-- C6: the statistic is the non-empty recommendation or "Maximum"; the
selected data point is the most recent by timestamp and feeds
`updateQuotaUsage` through `extractValueFromDatapoint`; an unrecognized
statistic falls back to the Maximum field; and a query that returns zero
data points leaves the quota record unchanged (no data, not an error). -/
theorem C6_metric_statistic_lookup :
    (getStatisticFromRecommendation none = "Maximum")
    ∧ (getStatisticFromRecommendation (some "") = "Maximum")
    ∧ (∀ s : String, s ≠ "" → getStatisticFromRecommendation (some s) = s)
    ∧ (∀ (dps : List Datapoint) (d : Datapoint), findLatestDatapoint dps = some d →
        d ∈ dps ∧ ∀ d' ∈ dps, d'.timestamp ≤ d.timestamp)
    ∧ (∀ dps : List Datapoint, dps ≠ [] → (findLatestDatapoint dps).isSome = true)
    ∧ (∀ (dps : List Datapoint) (stat : String) (q : Quota) (d : Datapoint),
        findLatestDatapoint dps = some d →
        processCloudWatchResult dps stat q
          = updateQuotaUsage { q with hasUsageMetrics := true }
              (extractValueFromDatapoint d stat))
    ∧ (∀ (d : Datapoint) (stat : String), stat ≠ "Maximum" → stat ≠ "Average" →
        stat ≠ "Sum" → stat ≠ "Minimum" →
        extractValueFromDatapoint d stat = d.maximum.getD 0)
    ∧ (∀ (cw : CloudWatchEnv) (m : MetricInfo) (q : Quota),
        cw m (getStatisticFromRecommendation m.metricStatisticRecommendation) = .ok [] →
        enrichWithUsageFromCloudWatch cw m q = q) := by
  refine ⟨rfl, by decide, ?_, findLatestDatapoint_spec, ?_, ?_, ?_, ?_⟩
  · intro s hs
    simp [getStatisticFromRecommendation, hs]
  · intro dps h
    cases dps with
    | nil => exact absurd rfl h
    | cons e ds => simp [findLatestDatapoint]
  · intro dps stat q d h
    cases dps with
    | nil => simp [findLatestDatapoint] at h
    | cons e ds =>
      simp only [processCloudWatchResult]
      rw [if_neg (by simp), h]
  · intro d stat h1 h2 h3 h4
    simp [extractValueFromDatapoint, h1, h2, h3, h4]
  · intro cw m q h
    unfold enrichWithUsageFromCloudWatch
    by_cases hns : m.metricNamespace = none ∨ m.metricName = none
    · rw [if_pos hns]
    · rw [if_neg hns]
      show (match cw m (getStatisticFromRecommendation m.metricStatisticRecommendation) with
        | Except.error _ => q
        | Except.ok result =>
          if result.length = 0 then q
          else processCloudWatchResult result
            (getStatisticFromRecommendation m.metricStatisticRecommendation) q) = q
      rw [h]
      rfl

/-- Witness fixture: a usage-metric descriptor with an unrecognized
recommended statistic. -/
def c6Metric : MetricInfo :=
  { metricNamespace := some "AWS/Usage", metricName := some "CallCount"
    metricDimensions := [], metricStatisticRecommendation := some "p99" }

/-- Witness fixture: a quota record before CloudWatch enrichment. -/
def c6Quota : Quota :=
  { region := "us-east-1", serviceCode := "cloudwatch", serviceName := "CloudWatch"
    quotaName := "PutMetricData calls", quotaCode := "L-AAAA1111"
    value := 150, usage := 0, usagePercentage := 0, hasUsageMetrics := false
    unit := "None", adjustable := true, global := false }

/-- Witness fixture: an older data point. -/
def c6Dp1 : Datapoint :=
  { timestamp := 100, maximum := some 7, average := some 4, sum := none, minimum := none }

/-- Witness fixture: the most recent data point. -/
def c6Dp2 : Datapoint :=
  { timestamp := 200, maximum := some 9, average := some 6, sum := none, minimum := none }

theorem C6_witness :
    getStatisticFromRecommendation (some "p99") = "p99"
    ∧ extractValueFromDatapoint c6Dp1 "p99" = c6Dp1.maximum.getD 0
    ∧ (c6Dp2 ∈ [c6Dp1, c6Dp2] ∧ ∀ d' ∈ [c6Dp1, c6Dp2], d'.timestamp ≤ c6Dp2.timestamp)
    ∧ enrichWithUsageFromCloudWatch (fun _ _ => .ok []) c6Metric c6Quota = c6Quota := by
  refine ⟨?_, ?_, ?_, ?_⟩
  · exact C6_metric_statistic_lookup.2.2.1 "p99" (by decide)
  · exact C6_metric_statistic_lookup.2.2.2.2.2.2.1 c6Dp1 "p99"
      (by decide) (by decide) (by decide) (by decide)
  · exact C6_metric_statistic_lookup.2.2.2.1 [c6Dp1, c6Dp2] c6Dp2 (by decide)
  · exact C6_metric_statistic_lookup.2.2.2.2.2.2.2 (fun _ _ => .ok []) c6Metric c6Quota rfl

theorem lastWithCodeAux_eq (code : String) (qs : List ServiceQuota) :
    ∀ acc : Option ServiceQuota,
    lastWithCodeAux code acc qs = (lastWithCode code qs).elim acc some := by
  induction qs with
  | nil => intro acc; rfl
  | cons q qs ih =>
    intro acc
    show lastWithCodeAux code (if q.quotaCode = some code then some q else acc) qs
      = (lastWithCodeAux code (if q.quotaCode = some code then some q else none) qs).elim acc some
    rw [ih, ih]
    cases hqs : lastWithCode code qs with
    | some q' => rfl
    | none =>
      by_cases hc : q.quotaCode = some code
      · rw [if_pos hc, if_pos hc]; rfl
      · rw [if_neg hc, if_neg hc]; rfl

theorem insertQuotasByCode_lookup (qs : List ServiceQuota) :
    ∀ (m : QuotaMap) (code : String),
    insertQuotasByCode m qs code = (lastWithCode code qs).elim (m code) some := by
  induction qs with
  | nil => intro m code; rfl
  | cons q qs ih =>
    intro m code
    show insertQuotasByCode
        (match q.quotaCode with
        | some c => fun x => if x = c then some q else m x
        | none => m) qs code
      = (lastWithCode code (q :: qs)).elim (m code) some
    rw [ih]
    have hshift : lastWithCode code (q :: qs)
        = lastWithCodeAux code (if q.quotaCode = some code then some q else none) qs := rfl
    rw [hshift, lastWithCodeAux_eq]
    cases hqs : lastWithCode code qs with
    | some q' => rfl
    | none =>
      cases hqc : q.quotaCode with
      | none =>
        have : ¬((none : Option String) = some code) := by simp
        rw [if_neg this]
        rfl
      | some c =>
        by_cases hc : c = code
        · rw [if_pos (show (some c : Option String) = some code by rw [hc])]
          simp only [Option.elim_none, Option.elim_some]
          show (if code = c then some q else m code) = some q
          rw [if_pos hc.symm]
        · rw [if_neg (show ¬((some c : Option String) = some code) by simpa using hc)]
          simp only [Option.elim_none, Option.elim_some]
          show (if code = c then some q else m code) = m code
          rw [if_neg (fun h => hc h.symm)]

theorem lastWithCode_mem (code : String) (qs : List ServiceQuota) :
    ∀ (acc : Option ServiceQuota) (q : ServiceQuota),
    lastWithCodeAux code acc qs = some q →
    (q ∈ qs ∧ q.quotaCode = some code) ∨ acc = some q := by
  induction qs with
  | nil => intro acc q h; exact Or.inr h
  | cons r qs ih =>
    intro acc q h
    have h' : lastWithCodeAux code (if r.quotaCode = some code then some r else acc) qs
        = some q := h
    rcases ih _ q h' with ⟨hmem, hcode⟩ | hacc
    · exact Or.inl ⟨List.mem_cons_of_mem _ hmem, hcode⟩
    · by_cases hc : r.quotaCode = some code
      · rw [if_pos hc] at hacc
        obtain rfl : r = q := by injection hacc
        exact Or.inl ⟨List.mem_cons_self _ _, hc⟩
      · rw [if_neg hc] at hacc
        exact Or.inr hacc

theorem lastWithCode_isSome (code : String) (qs : List ServiceQuota) :
    ∀ acc : Option ServiceQuota,
    (∃ q ∈ qs, q.quotaCode = some code) ∨ acc.isSome = true →
    (lastWithCodeAux code acc qs).isSome = true := by
  induction qs with
  | nil =>
    intro acc h
    rcases h with ⟨q, hq, _⟩ | h
    · simp at hq
    · exact h
  | cons r qs ih =>
    intro acc h
    show (lastWithCodeAux code (if r.quotaCode = some code then some r else acc) qs).isSome
      = true
    rcases h with ⟨q, hq, hcode⟩ | h
    · rcases List.mem_cons.mp hq with rfl | hmem
      · apply ih
        right
        rw [if_pos hcode]
        rfl
      · exact ih _ (Or.inl ⟨q, hmem, hcode⟩)
    · apply ih
      right
      by_cases hc : r.quotaCode = some code
      · rw [if_pos hc]; rfl
      · rw [if_neg hc]; exact h

/-- C7: in the merged per-service quota table, an applied definition
always overrides a default one with the same quota code — the retained
entry for a code listed among the applied quotas is itself an applied
quota with that code (the last listed one) — and every code listed in
either the default or the applied listing is present in the merged
table. -/
theorem C7_applied_overrides_default (defaults applied : List ServiceQuota)
    (code : String) :
    ((∃ q ∈ applied, q.quotaCode = some code) →
      ∃ q, q ∈ applied ∧ q.quotaCode = some code ∧
        getQuotasForServiceMap defaults applied code = some q)
    ∧ (((∃ q ∈ defaults, q.quotaCode = some code)
        ∨ (∃ q ∈ applied, q.quotaCode = some code)) →
      (getQuotasForServiceMap defaults applied code).isSome = true) := by
  have hmerged : getQuotasForServiceMap defaults applied code
      = (lastWithCode code applied).elim
          ((lastWithCode code defaults).elim none some) some := by
    show insertQuotasByCode (insertQuotasByCode (fun _ => none) defaults) applied code
      = _
    rw [insertQuotasByCode_lookup, insertQuotasByCode_lookup]
  constructor
  · intro hex
    have hsome : (lastWithCode code applied).isSome = true :=
      lastWithCode_isSome code applied none (Or.inl hex)
    obtain ⟨q, hq⟩ := Option.isSome_iff_exists.mp hsome
    rcases lastWithCode_mem code applied none q hq with ⟨hmem, hcode⟩ | habs
    · exact ⟨q, hmem, hcode, by rw [hmerged, hq, Option.elim_some]⟩
    · exact absurd habs (by simp)
  · intro hor
    rw [hmerged]
    rcases hor with hdef | happ
    · cases happ : lastWithCode code applied with
      | some q => rfl
      | none =>
        have hsome : (lastWithCode code defaults).isSome = true :=
          lastWithCode_isSome code defaults none (Or.inl hdef)
        obtain ⟨q, hq⟩ := Option.isSome_iff_exists.mp hsome
        rw [hq]
        rfl
    · have hsome : (lastWithCode code applied).isSome = true :=
        lastWithCode_isSome code applied none (Or.inl happ)
      obtain ⟨q, hq⟩ := Option.isSome_iff_exists.mp hsome
      rw [hq]
      rfl

/-- Witness fixture: a default Elastic IP quota definition. -/
def c7Default : ServiceQuota :=
  { quotaCode := some "L-0263D0A3", quotaName := some "EC2-VPC Elastic IPs"
    unit := some "None", value := some 5, adjustable := true
    globalQuota := false, usageMetric := none }

/-- Witness fixture: the applied (account-adjusted) definition for the
same quota code. -/
def c7Applied : ServiceQuota := { c7Default with value := some 20 }

theorem C7_witness :
    (∃ q, q ∈ [c7Applied] ∧ q.quotaCode = some "L-0263D0A3" ∧
      getQuotasForServiceMap [c7Default] [c7Applied] "L-0263D0A3" = some q)
    ∧ (getQuotasForServiceMap [c7Default] [c7Applied] "L-0263D0A3").isSome = true := by
  constructor
  · exact (C7_applied_overrides_default [c7Default] [c7Applied] "L-0263D0A3").1
      ⟨c7Applied, by simp, rfl⟩
  · exact (C7_applied_overrides_default [c7Default] [c7Applied] "L-0263D0A3").2
      (Or.inl ⟨c7Default, by simp, rfl⟩)

/-- C8: the handler's cache key is built from the region selector and
service filter only (the resulting cache state does not depend on the
search term), a cache hit returns the post-filtered cached list, a miss
stores the unfiltered fetched list under that key and returns its
post-filtered form, and a non-empty search term keeps exactly the quotas
whose name, service name or service code contains it case-insensitively. -/
theorem C8_cache_key_and_search_filter (c : Cache (List Quota)) (now : ℤ)
    (regionParam serviceFilter search : String) (fetched : Except String (List Quota)) :
    (∀ s' : String,
      (getQuotasHandler c now regionParam serviceFilter search fetched).2
        = (getQuotasHandler c now regionParam serviceFilter s' fetched).2)
    ∧ (∀ v, c.Get now (cacheKey regionParam serviceFilter) = some v →
        getQuotasHandler c now regionParam serviceFilter search fetched
          = (.ok (applySearch search v, true), c))
    ∧ (∀ qs, c.Get now (cacheKey regionParam serviceFilter) = none → fetched = .ok qs →
        (getQuotasHandler c now regionParam serviceFilter search fetched).2
            = c.Set now (cacheKey regionParam serviceFilter) qs
        ∧ (getQuotasHandler c now regionParam serviceFilter search fetched).1
            = .ok (applySearch search qs, false))
    ∧ (∀ (qs : List Quota) (q : Quota), search ≠ "" →
        (q ∈ applySearch search qs ↔
          q ∈ qs ∧ matchesSearch search.toLower q = true)) := by
  refine ⟨?_, ?_, ?_, ?_⟩
  · intro s'
    simp only [getQuotasHandler]
    cases c.Get now (cacheKey regionParam serviceFilter) with
    | some v => rfl
    | none =>
      cases fetched with
      | error e => rfl
      | ok qs => rfl
  · intro v hv
    simp only [getQuotasHandler, hv]
  · intro qs hget hfetched
    constructor
    · simp [getQuotasHandler, hget, hfetched]
    · simp [getQuotasHandler, hget, hfetched]
  · intro qs q hs
    unfold applySearch
    rw [if_neg hs]
    exact List.mem_filter

/-- Witness fixture: an EC2 instance quota for the search post-filter. -/
def c8Quota1 : Quota :=
  { region := "us-east-1", serviceCode := "ec2", serviceName := "Amazon EC2"
    quotaName := "Running On-Demand instances", quotaCode := "L-1216C47A"
    value := 64, usage := 0, usagePercentage := 0, hasUsageMetrics := false
    unit := "None", adjustable := true, global := false }

/-- Witness fixture: a VPC quota matched by the search term "vpc". -/
def c8Quota2 : Quota :=
  { region := "us-east-1", serviceCode := "vpc", serviceName := "Amazon VPC"
    quotaName := "VPCs per Region", quotaCode := "L-F678F1CE"
    value := 5, usage := 0, usagePercentage := 0, hasUsageMetrics := false
    unit := "None", adjustable := true, global := false }

theorem C8_witness :
    (getQuotasHandler (Cache.New (List Quota) 300) 0 "all" "" "VPC"
        (.ok [c8Quota1, c8Quota2])).2
      = (Cache.New (List Quota) 300).Set 0 (cacheKey "all" "") [c8Quota1, c8Quota2]
    ∧ (getQuotasHandler (Cache.New (List Quota) 300) 0 "all" "" "VPC"
        (.ok [c8Quota1, c8Quota2])).1
      = .ok (applySearch "VPC" [c8Quota1, c8Quota2], false)
    ∧ (c8Quota2 ∈ applySearch "VPC" [c8Quota1, c8Quota2] ↔
        c8Quota2 ∈ [c8Quota1, c8Quota2]
          ∧ matchesSearch ("VPC").toLower c8Quota2 = true) := by
  obtain ⟨h1, h2⟩ := (C8_cache_key_and_search_filter (Cache.New (List Quota) 300) 0
    "all" "" "VPC" (.ok [c8Quota1, c8Quota2])).2.2.1 [c8Quota1, c8Quota2] rfl rfl
  exact ⟨h1, h2,
    (C8_cache_key_and_search_filter (Cache.New (List Quota) 300) 0
      "all" "" "VPC" (.ok [c8Quota1, c8Quota2])).2.2.2 [c8Quota1, c8Quota2] c8Quota2
      (by decide)⟩

theorem safeTrace_nil : SafeTrace [] :=
  ⟨List.chain'_nil, by simp⟩

theorem safeTrace_singleton (e : Event) (he : isPrimaryQuotaAPI e = false) :
    SafeTrace [e] := by
  refine ⟨List.chain'_singleton e, ?_⟩
  intro x hx
  simp only [List.head?_cons, Option.mem_def, Option.some.injEq] at hx
  rw [← hx]
  exact he

theorem safeTrace_append {s t : List Event} (hs : SafeTrace s) (ht : SafeTrace t) :
    SafeTrace (s ++ t) := by
  obtain ⟨hcs, hhs⟩ := hs
  obtain ⟨hct, hht⟩ := ht
  constructor
  · refine List.Chain'.append hcs hct ?_
    intro x hx y hy hp
    exact absurd hp (by rw [hht y hy]; simp)
  · intro e he
    cases s with
    | nil => exact hht e he
    | cons a s' =>
      simp only [List.cons_append, List.head?_cons, Option.mem_def,
        Option.some.injEq] at he
      rw [← he]
      exact hhs a (by simp)

theorem safeTrace_wait_block (e : Event) : SafeTrace [Event.limiterWait, e] := by
  refine ⟨List.chain'_pair.mpr (fun _ => rfl), ?_⟩
  intro x hx
  simp only [List.head?_cons, Option.mem_def, Option.some.injEq] at hx
  rw [← hx]
  rfl

theorem safeTrace_pagesTrace (e : Event) (n : ℕ) : SafeTrace (pagesTrace e n) := by
  induction n with
  | zero => exact safeTrace_nil
  | succ n ih =>
    show SafeTrace ([Event.limiterWait, e] ++ pagesTrace e n)
    exact safeTrace_append (safeTrace_wait_block e) ih

theorem safeTrace_flatMap {α : Type} (f : α → List Event)
    (hf : ∀ a, SafeTrace (f a)) (l : List α) : SafeTrace (l.flatMap f) := by
  induction l with
  | nil => exact safeTrace_nil
  | cons a l ih =>
    show SafeTrace (f a ++ l.flatMap f)
    exact safeTrace_append (hf a) ih

theorem safeTrace_quotaUsageTrace (p : QuotaCallFlags) :
    SafeTrace (quotaUsageTrace p) := by
  unfold quotaUsageTrace
  apply safeTrace_append
  · split
    · exact safeTrace_singleton _ rfl
    · exact safeTrace_nil
  · split
    · exact safeTrace_singleton _ rfl
    · exact safeTrace_nil

theorem safeTrace_getQuotasForServiceTrace (s : ServiceCallShape) :
    SafeTrace (getQuotasForServiceTrace s) :=
  safeTrace_append
    (safeTrace_append (safeTrace_pagesTrace _ _) (safeTrace_pagesTrace _ _))
    (safeTrace_flatMap _ safeTrace_quotaUsageTrace _)

theorem safeTrace_getQuotasForRegionTrace (r : RegionCallShape) :
    SafeTrace (getQuotasForRegionTrace r) := by
  apply safeTrace_append
  · show SafeTrace ([Event.limiterWait] ++ pagesTrace Event.listServicesPage r.servicePages)
    exact safeTrace_append (safeTrace_singleton _ rfl) (safeTrace_pagesTrace _ _)
  · exact safeTrace_flatMap _ safeTrace_getQuotasForServiceTrace _

theorem safeTrace_get {t : List Event} (h : SafeTrace t) :
    (∀ (i : ℕ) (hi : i + 1 < t.length),
      isPrimaryQuotaAPI (t.get ⟨i + 1, hi⟩) = true →
      t.get ⟨i, Nat.lt_of_succ_lt hi⟩ = Event.limiterWait)
    ∧ (∀ h0 : 0 < t.length, isPrimaryQuotaAPI (t.get ⟨0, h0⟩) = false) := by
  obtain ⟨hc, hh⟩ := h
  constructor
  · intro i hi hp
    exact List.chain'_iff_get.mp hc i (by omega) hp
  · intro h0
    apply hh
    cases t with
    | nil => simp at h0
    | cons a t' => simp

/-- C9: in the call trace of a whole region fetch, every page request
that reaches the primary quota-listing API (service listing, default and
applied quota listings) is immediately preceded by a limiter acquisition
and never occurs first, while the region listing, the direct probes and
the metric queries never acquire a limiter token. -/
theorem C9_rate_limiter_discipline :
    (∀ (r : RegionCallShape) (i : ℕ) (hi : i + 1 < (getQuotasForRegionTrace r).length),
      isPrimaryQuotaAPI ((getQuotasForRegionTrace r).get ⟨i + 1, hi⟩) = true →
      (getQuotasForRegionTrace r).get ⟨i, Nat.lt_of_succ_lt hi⟩ = Event.limiterWait)
    ∧ (∀ (r : RegionCallShape) (h0 : 0 < (getQuotasForRegionTrace r).length),
      isPrimaryQuotaAPI ((getQuotasForRegionTrace r).get ⟨0, h0⟩) = false)
    ∧ Event.limiterWait ∉ getRegionsTrace
    ∧ (∀ p : QuotaCallFlags, Event.limiterWait ∉ quotaUsageTrace p) := by
  refine ⟨?_, ?_, by decide, ?_⟩
  · intro r
    exact (safeTrace_get (safeTrace_getQuotasForRegionTrace r)).1
  · intro r
    exact (safeTrace_get (safeTrace_getQuotasForRegionTrace r)).2
  · intro p
    cases hp : p.probeCalled <;> cases hm : p.metricCalled <;>
      simp [quotaUsageTrace, hp, hm]

/-- Witness fixture: one region fetch with one service-listing page, one
service with one default page, one applied page and one quota that fires
both usage calls. -/
def c9Shape : RegionCallShape :=
  { servicePages := 1
    services := [{ defaultPages := 1, appliedPages := 1
                   quotas := [{ probeCalled := true, metricCalled := true }] }] }

theorem C9_witness :
    isPrimaryQuotaAPI ((getQuotasForRegionTrace c9Shape).get ⟨2, by decide⟩) = true
    ∧ (getQuotasForRegionTrace c9Shape).get ⟨1, by decide⟩ = Event.limiterWait :=
  ⟨by decide, C9_rate_limiter_discipline.1 c9Shape 1 (by decide) (by decide)⟩
